import Mathlib

/-!
Shallow embedding of `zfs_fuse_snapshot.py`.

External effects are modelled as explicit inputs:
* the `zfs list` snapshot listing is a list of `(name, creation time)` pairs
  (creation times are printed by `zfs list -p` as fixed-width epoch seconds,
  so their string order coincides with the numeric order; they are modelled
  as naturals);
* the standard output of a spawned `zfs send` subprocess is a list of bytes
  (bytes modelled as naturals);
* the dataset catalog (`simplezfs` `list_datasets`) is a list of entries
  carrying a full path and a parent path.
-/

namespace ZfsFuse

/-- Python `name.startswith(dataset)`: `dataset` is a string prefix of `name`. -/
def pyStartswith (name pre : String) : Bool :=
  pre.toList.isPrefixOf name.toList

/-- Python `snapshot.split('@')[0]`: the part of the string before the first `@`. -/
def datasetOf (snapshot : String) : String :=
  ⟨snapshot.toList.takeWhile (fun c => c ≠ '@')⟩

/-- Result of `find_closest_snapshot`: the Python function returns `None`,
a snapshot name (a `str`), or — on the not-found path (line 42) — a
`RuntimeError` VALUE (`return RuntimeError(...)`, not `raise`). -/
inductive FindResult where
  | none : FindResult
  | snap (name : String) : FindResult
  | err (msg : String) : FindResult
  deriving DecidableEq, Repr

/-- The first loop of `find_closest_snapshot` (lines 31–38): accumulates the
prefix-matching entries other than the target (`snap_names`/`ctimes`, in
listing order) and the creation time of the target itself (`snap_ctime`,
last match wins). -/
def scanStep (snapshot dataset : String)
    (acc : List (String × Nat) × Option Nat) (entry : String × Nat) :
    List (String × Nat) × Option Nat :=
  if pyStartswith entry.1 dataset then
    if entry.1 == snapshot then (acc.1, some entry.2)
    else (acc.1 ++ [entry], acc.2)
  else acc

/-- `find_closest_snapshot` (lines 24–52), over the parsed `zfs list` output. -/
def find_closest_snapshot (snapshot : String) (listing : List (String × Nat)) :
    FindResult :=
  let dataset := datasetOf snapshot
  let scanned := listing.foldl (scanStep snapshot dataset) ([], Option.none)
  match scanned.2 with
  | Option.none => FindResult.err ("snapshot " ++ snapshot ++ " not found")
  | some snap_ctime =>
    let closest := scanned.1.foldl
      (fun (closest : Option (String × Nat)) entry =>
        if entry.2 < snap_ctime then
          match closest with
          | Option.none => some entry
          | some best => if entry.2 > best.2 then some entry else some best
        else closest)
      Option.none
    match closest with
    | Option.none => FindResult.none
    | some best => FindResult.snap best.1

/-- Python truthiness of a `find_closest_snapshot` result, as tested by
`if from_snap:` in `get_size` (line 57) and `SendBuffer.__init__` (line 69):
`None` is falsy, a string is truthy iff nonempty, and a `RuntimeError`
object is truthy. -/
def FindResult.truthy : FindResult → Bool
  | FindResult.none => false
  | FindResult.snap name => !name.isEmpty
  | FindResult.err _ => true

/-- Whether `get_size` takes the incremental branch, splicing the
`find_closest_snapshot` result into the `zfs send` argument list as the
`-i` base (lines 56–58). -/
def get_size_incremental (zpath : String) (listing : List (String × Nat)) : Bool :=
  (find_closest_snapshot zpath listing).truthy

/-- A listing for dataset `tank/a` polluted by the sibling dataset `tank/ab`,
whose name also passes the `name.startswith(dataset)` test of line 33. -/
def crossListing : List (String × Nat) :=
  [("tank/a@s2", 200), ("tank/ab@s1", 150), ("tank/a@s0", 100)]

/-- C1: fails on the code. `find_closest_snapshot` filters candidates with
`name.startswith(dataset)`, which also admits snapshots of other datasets
whose name extends the target's dataset name; with target `tank/a@s2`
(created at 200) and listing `tank/a@s2`, `tank/ab@s1` (150),
`tank/a@s0` (100), it returns `tank/ab@s1` — a snapshot of dataset
`tank/ab`, not of `tank/a`. -/
theorem find_closest_snapshot_crosses_datasets :
    find_closest_snapshot "tank/a@s2" crossListing = FindResult.snap "tank/ab@s1"
    ∧ datasetOf "tank/ab@s1" ≠ datasetOf "tank/a@s2" := by
  constructor
  · rfl
  · decide

/-- C2: fails on the code. When the target is absent from the listing,
`find_closest_snapshot` RETURNS a `RuntimeError` value (line 42 says
`return`, not `raise`); the value is truthy, so the caller `get_size`
takes the incremental branch and uses it as the `-i` base argument. -/
theorem find_closest_snapshot_returns_error :
    find_closest_snapshot "tank/a@s9" [("tank/a@s1", 100)]
      = FindResult.err "snapshot tank/a@s9 not found"
    ∧ get_size_incremental "tank/a@s9" [("tank/a@s1", 100)] = true := by
  constructor
  · rfl
  · rfl

/-- `SendBuffer` (lines 65–91). `pipe` models the unread remainder of the
spawned `zfs send` subprocess's standard output; `pointer` is
`self.pointer`. -/
structure SendBuffer where
  pipe : List Nat
  pointer : Nat
  deriving DecidableEq, Repr

/-- `SendBuffer.__init__` (lines 66–74): the pointer starts at 0. The base
selection and the subprocess spawn are external effects; the subprocess's
whole standard-output contents are the `stream` input. -/
def SendBuffer.init (stream : List Nat) : SendBuffer :=
  { pipe := stream, pointer := 0 }

/-- Lines 80–83 of `SendBuffer.read`: when `offset > self.pointer`, read and
drop `offset - self.pointer` bytes from the pipe (fewer remove only at
end-of-stream) and set the pointer to `offset`. -/
def SendBuffer.skipTo (b : SendBuffer) (offset : Nat) : SendBuffer :=
  if b.pointer < offset then
    { pipe := b.pipe.drop (offset - b.pointer), pointer := offset }
  else b

/-- `SendBuffer.read` (lines 76–87): after the forward skip, a pipe
`read(length)` returns the next `min length |pipe|` bytes (short only at
end-of-stream), and the pointer advances by the number of bytes returned. -/
def SendBuffer.read (b : SendBuffer) (length offset : Nat) :
    List Nat × SendBuffer :=
  ((b.skipTo offset).pipe.take length,
   { pipe := (b.skipTo offset).pipe.drop length,
     pointer := (b.skipTo offset).pointer
       + ((b.skipTo offset).pipe.take length).length })

/-- Running a sequence of `read` calls (each a `(length, offset)` pair) on a
`SendBuffer`, keeping only the final state. -/
def SendBuffer.runReads (b : SendBuffer) (calls : List (Nat × Nat)) :
    SendBuffer :=
  calls.foldl (fun st c => (st.read c.1 c.2).2) b

/-- C3 as stated fails at end-of-stream: on a 5-byte stream, `read 10 8`
sets the pointer to 8, but only 5 bytes are consumed from the pipe in
total — not the `offset - pointer = 8` bytes the claim says are read and
discarded (the pipe is exhausted first; none are even returned). -/
theorem sendbuffer_skip_short_at_eof :
    ((SendBuffer.init [1, 2, 3, 4, 5]).read 10 8).2.pointer = 8
    ∧ (SendBuffer.init [1, 2, 3, 4, 5]).pipe.length
        - (((SendBuffer.init [1, 2, 3, 4, 5]).read 10 8).1.length
            + ((SendBuffer.init [1, 2, 3, 4, 5]).read 10 8).2.pipe.length) = 5
    ∧ ¬ ((SendBuffer.init [1, 2, 3, 4, 5]).pipe.length
        - (((SendBuffer.init [1, 2, 3, 4, 5]).read 10 8).1.length
            + ((SendBuffer.init [1, 2, 3, 4, 5]).read 10 8).2.pipe.length)
        = 8 - (SendBuffer.init [1, 2, 3, 4, 5]).pointer) := by
  decide

/-- C3 amended: for a `read length offset` call with `pointer ≤ offset`,
`min (offset - pointer) |pipe|` bytes are read and discarded from the pipe
(exactly `offset - pointer` unless the stream ends first) and the pointer
becomes `offset`; the returned data is the next at-most-`length` bytes
after the skip, and the final pointer is `offset` plus the number of bytes
actually returned. -/
theorem sendbuffer_read_spec (b : SendBuffer) (length offset : Nat)
    (h : b.pointer ≤ offset) :
    (b.read length offset).1 = (b.pipe.drop (offset - b.pointer)).take length
    ∧ (b.read length offset).2.pointer = offset + (b.read length offset).1.length
    ∧ (b.read length offset).1.length ≤ length
    ∧ b.pipe.length
        - ((b.read length offset).1.length + (b.read length offset).2.pipe.length)
      = min (offset - b.pointer) b.pipe.length := by
  by_cases hlt : b.pointer < offset
  · have hb : b.skipTo offset
        = ⟨b.pipe.drop (offset - b.pointer), offset⟩ := by
      simp [SendBuffer.skipTo, hlt]
    simp only [SendBuffer.read, hb]
    refine ⟨trivial, trivial, ?_, ?_⟩
    · simp only [List.length_take, List.length_drop]
      omega
    · simp only [List.length_take, List.length_drop]
      omega
  · have heq : b.pointer = offset := Nat.le_antisymm h (Nat.not_lt.mp hlt)
    have hb : b.skipTo offset = b := by
      simp [SendBuffer.skipTo, hlt]
    simp only [SendBuffer.read, hb, heq, Nat.sub_self, List.drop_zero]
    refine ⟨trivial, trivial, ?_, ?_⟩
    · simp only [List.length_take]
      omega
    · simp only [List.length_take, List.length_drop]
      omega

/-- Witness for the amended C3 theorem at `pipe = [1, 2, 3]`, `pointer = 0`,
`read 2 1`. -/
theorem sendbuffer_read_spec_witness :
    (SendBuffer.mk [1, 2, 3] 0).pointer ≤ 1
    ∧ (((SendBuffer.mk [1, 2, 3] 0).read 2 1).1
        = ((SendBuffer.mk [1, 2, 3] 0).pipe.drop
            (1 - (SendBuffer.mk [1, 2, 3] 0).pointer)).take 2
      ∧ ((SendBuffer.mk [1, 2, 3] 0).read 2 1).2.pointer
        = 1 + ((SendBuffer.mk [1, 2, 3] 0).read 2 1).1.length
      ∧ ((SendBuffer.mk [1, 2, 3] 0).read 2 1).1.length ≤ 2
      ∧ (SendBuffer.mk [1, 2, 3] 0).pipe.length
          - (((SendBuffer.mk [1, 2, 3] 0).read 2 1).1.length
              + ((SendBuffer.mk [1, 2, 3] 0).read 2 1).2.pipe.length)
        = min (1 - (SendBuffer.mk [1, 2, 3] 0).pointer)
            (SendBuffer.mk [1, 2, 3] 0).pipe.length) :=
  ⟨by decide, sendbuffer_read_spec (SendBuffer.mk [1, 2, 3] 0) 2 1 (by decide)⟩

/-- C5: on any serializer stream, reading 1024 bytes at offset 0 and then
1024 bytes at offset 1024 on the same session yields, concatenated, the
same bytes as a single read of 2048 bytes at offset 0 on a fresh session. -/
theorem sendbuffer_split_read (stream : List Nat) :
    ((SendBuffer.init stream).read 1024 0).1
        ++ (((SendBuffer.init stream).read 1024 0).2.read 1024 1024).1
      = ((SendBuffer.init stream).read 2048 0).1 := by
  have hinit : SendBuffer.init stream = SendBuffer.mk stream 0 := rfl
  have hs : (SendBuffer.mk stream 0).skipTo 0 = SendBuffer.mk stream 0 := by
    simp [SendBuffer.skipTo]
  have hskip0 : ∀ n : Nat, ((SendBuffer.init stream).read n 0).1 = stream.take n := by
    intro n
    simp [SendBuffer.read, hinit, hs]
  have h1 : ((SendBuffer.init stream).read 1024 0).2
      = ⟨stream.drop 1024, (stream.take 1024).length⟩ := by
    simp [SendBuffer.read, hinit, hs]
  rw [hskip0 1024, hskip0 2048, h1]
  by_cases hlen : stream.length < 1024
  · have ht : stream.take 1024 = stream := List.take_of_length_le (by omega)
    have ht2 : stream.take 2048 = stream := List.take_of_length_le (by omega)
    have hd : stream.drop 1024 = [] := by
      rw [List.drop_eq_nil_iff]
      omega
    rw [ht, ht2, hd]
    simp [SendBuffer.read, SendBuffer.skipTo, hlen]
  · have hl : (stream.take 1024).length = 1024 := by
      simp only [List.length_take]
      omega
    have hc : ¬ (1024 : Nat) < 1024 := by omega
    rw [hl]
    simp only [SendBuffer.read, SendBuffer.skipTo, if_neg hc]
    rw [show (2048 : Nat) = 1024 + 1024 by norm_num, List.take_add]

/-- C6: the read pointer never decreases: a single `read` call, and hence
any sequence of `read` calls, leaves the pointer greater than or equal to
its previous value — even when the requested offset lies below the current
pointer. -/
theorem sendbuffer_pointer_monotone (b : SendBuffer) (length offset : Nat)
    (calls : List (Nat × Nat)) :
    b.pointer ≤ ((b.read length offset).2).pointer
    ∧ b.pointer ≤ (b.runReads calls).pointer := by
  have hstep : ∀ (st : SendBuffer) (l o : Nat),
      st.pointer ≤ ((st.read l o).2).pointer := by
    intro st l o
    simp only [SendBuffer.read, SendBuffer.skipTo]
    by_cases hlt : st.pointer < o
    · simp only [if_pos hlt]
      omega
    · simp only [if_neg hlt]
      omega
  refine ⟨hstep b length offset, ?_⟩
  induction calls generalizing b with
  | nil => exact Nat.le_refl _
  | cons c rest ih =>
      exact Nat.le_trans (hstep b c.1 c.2) (ih _)

/-- Python `s.rstrip(chars)`: removes trailing characters that belong to
the character SET `chars` (not a suffix removal). -/
def pyRstrip (s chars : String) : String :=
  ⟨(s.toList.reverse.dropWhile (fun c => chars.toList.contains c)).reverse⟩

/-- Python `s.lstrip(chars)`: removes leading characters that belong to the
character SET `chars` (not a prefix removal). -/
def pyLstrip (s chars : String) : String :=
  ⟨s.toList.dropWhile (fun c => chars.toList.contains c)⟩

/-- `FuseSnapshot._path2zpath` (lines 100–102): `self.zpool + path.rstrip('/')`. -/
def path2zpath (zpool path : String) : String :=
  zpool ++ pyRstrip path "/"

/-- `stat.S_IFMT`, the file-type bit mask. -/
def S_IFMT : Nat := 61440

/-- `stat.S_IFREG`, the regular-file type bits. -/
def S_IFREG : Nat := 32768

/-- `stat.S_IFDIR`, the directory type bits. -/
def S_IFDIR : Nat := 16384

/-- `stat.S_IRUSR`. -/
def S_IRUSR : Nat := 256

/-- `stat.S_IXUSR`. -/
def S_IXUSR : Nat := 64

/-- The attribute record returned by `FuseSnapshot.getattr` (lines 124–133). -/
structure Attr where
  st_atime : Nat
  st_ctime : Nat
  st_gid : Nat
  st_mode : Nat
  st_mtime : Nat
  st_nlink : Nat
  st_size : Nat
  st_uid : Nat
  deriving DecidableEq, Repr

/-- `FuseSnapshot.getattr` (lines 110–133). The single-entry `zfs list`
query for the resolved path is an external effect; its parsed result
(`ztype`, `ctime`) and the `get_size` estimate for the node are the
inputs. `st_size` is the estimate doubled (`st_size *= 2`, line 120) for a
snapshot, and 0 for any other node type. -/
def fuseGetattr (ztype : String) (ctime : Nat) (size_estimate : Nat) : Attr :=
  let inode_type := if ztype == "snapshot" then S_IFREG else S_IFDIR
  let st_size := (if ztype == "snapshot" then size_estimate else 0) * 2
  { st_atime := ctime
    st_ctime := ctime
    st_gid := 0
    st_mode := inode_type ||| S_IRUSR ||| S_IXUSR
    st_mtime := ctime
    st_nlink := 1
    st_size := st_size
    st_uid := 0 }

/-- C4: `getattr` reports regular-file type bits and twice the size
estimate for a snapshot node, directory type bits and size 0 for any other
node, and sets all three timestamps to the node's creation time. -/
theorem getattr_attrs (ztype : String) (ctime size_estimate : Nat) :
    (fuseGetattr ztype ctime size_estimate).st_mode &&& S_IFMT
      = (if ztype == "snapshot" then S_IFREG else S_IFDIR)
    ∧ (fuseGetattr ztype ctime size_estimate).st_size
      = (if ztype == "snapshot" then 2 * size_estimate else 0)
    ∧ (fuseGetattr ztype ctime size_estimate).st_atime = ctime
    ∧ (fuseGetattr ztype ctime size_estimate).st_mtime = ctime
    ∧ (fuseGetattr ztype ctime size_estimate).st_ctime = ctime := by
  refine ⟨?_, ?_, rfl, rfl, rfl⟩
  · cases h : (ztype == "snapshot") <;>
      simp only [fuseGetattr, h, Bool.false_eq_true, if_true, if_false,
        Bool.not_eq_true] <;> decide
  · cases h : (ztype == "snapshot") <;>
      simp [fuseGetattr, h, Nat.mul_comm]

/-- An entry of the dataset catalog (`simplezfs` `list_datasets`): a full
path and a parent path. -/
structure DatasetEntry where
  full_path : String
  parent : String
  deriving DecidableEq, Repr

/-- `FuseSnapshot.readdir` (lines 135–141): yields `.`, `..`, then, for
each catalog entry whose `parent` equals the resolved path, the entry's
`full_path` with `lstrip(self.zpool + '/')` applied. The dataset catalog
query result is the `datasets` input. -/
def readdir (zpool path : String) (datasets : List DatasetEntry) : List String :=
  let zpath := path2zpath zpool path
  "." :: ".." ::
    (datasets.filter (fun d => d.parent == zpath)).map
      (fun d => pyLstrip d.full_path (zpool ++ "/"))

/-- C9: fails on the code. `lstrip` strips a character SET, not a prefix:
for pool `tank`, the child dataset `tank/archive` is presented as
`rchive` (the leading `a` of `archive` is also in the set
`{t, a, n, k, /}`), not as `archive`. `.` and `..` do come first, and only
the direct children are listed. -/
theorem readdir_mangles_names :
    readdir "tank" "/" [DatasetEntry.mk "tank/archive" "tank"]
      = [".", "..", "rchive"]
    ∧ ("rchive" : String) ≠ "archive" := by
  constructor
  · rfl
  · decide

/-- A Python value in the `statfs` record: an int or a str. -/
inductive PyVal where
  | int (n : Nat) : PyVal
  | str (s : String) : PyVal
  deriving DecidableEq, Repr

/-- The `stv` dict literal of `FuseSnapshot.statfs` (lines 144–152). -/
def stv : List (String × PyVal) :=
  [("f_bsize", PyVal.int 4096), ("f_blocks", PyVal.int 65536),
   ("f_bfree", PyVal.int 0), ("f_ffree", PyVal.int 0),
   ("f_bavail", PyVal.int 0), ("f_namelen", PyVal.int 1024),
   ("f_flag", PyVal.str "")]

/-- Python `getattr(obj, key, default)` applied to the dict `stv`: `getattr`
looks up object ATTRIBUTES, not dict items, and no attribute of `dict` is
named `f_bavail`, `f_bfree`, `f_blocks`, `f_bsize`, `f_favail`, `f_ffree`,
`f_files`, `f_flag`, `f_frsize` or `f_namemax`, so every one of these
lookups falls through to the default. -/
def pyGetattrOnDict (d : List (String × PyVal)) (key : String)
    (dflt : PyVal) : PyVal :=
  dflt

/-- The key tuple of the comprehension on lines 153–155. -/
def statfsKeys : List String :=
  ["f_bavail", "f_bfree", "f_blocks", "f_bsize", "f_favail", "f_ffree",
   "f_files", "f_flag", "f_frsize", "f_namemax"]

/-- `FuseSnapshot.statfs` (lines 143–155):
`dict((key, getattr(stv, key, 0)) for key in (...))`. -/
def statfs (path : String) : List (String × PyVal) :=
  statfsKeys.map (fun key => (key, pyGetattrOnDict stv key (PyVal.int 0)))

/-- C10: partly fails on the code. The returned record is indeed fixed and
path-independent, but `getattr(stv, key, 0)` reads attributes of the dict
object instead of its items, so every reported field — including
`f_bsize` and `f_blocks` — is 0, not the 4096 / 2^16 written in the `stv`
literal two lines above. -/
theorem statfs_reports_all_zero (path : String) :
    statfs path = statfsKeys.map (fun key => (key, PyVal.int 0))
    ∧ (statfs path).lookup "f_bsize" = some (PyVal.int 0)
    ∧ (statfs path).lookup "f_blocks" = some (PyVal.int 0)
    ∧ stv.lookup "f_bsize" = some (PyVal.int 4096)
    ∧ stv.lookup "f_blocks" = some (PyVal.int 65536) := by
  refine ⟨rfl, ?_, ?_, ?_, ?_⟩ <;> rfl

/-- Looking a key up after filtering that very key out of an association
list always fails. -/
theorem lookup_filter_self {α : Type} (fh : Nat) (l : List (Nat × α)) :
    (l.filter (fun p => p.1 != fh)).lookup fh = Option.none := by
  induction l with
  | nil => rfl
  | cons p rest ih =>
      by_cases hp : p.1 = fh
      · simp [List.filter_cons, hp, ih]
      · have ht : (p.1 != fh) = true := bne_iff_ne.mpr hp
        have hb : (fh == p.1) = false :=
          beq_eq_false_iff_ne.mpr (fun hh => hp hh.symm)
        simp [List.filter_cons, ht, List.lookup, hb, ih]

/-- Filtering one key out of an association list does not change the
lookup of any other key. -/
theorem lookup_filter_ne {α : Type} (k fh : Nat) (hk : k ≠ fh)
    (l : List (Nat × α)) :
    (l.filter (fun p => p.1 != fh)).lookup k = l.lookup k := by
  induction l with
  | nil => rfl
  | cons p rest ih =>
      have hbf : (k == fh) = false := beq_eq_false_iff_ne.mpr hk
      by_cases hp : p.1 = fh
      · have hb : (k == p.1) = false :=
          beq_eq_false_iff_ne.mpr (by rw [hp]; exact hk)
        simp [List.filter_cons, hp, List.lookup, hb, hbf, ih]
      · have ht : (p.1 != fh) = true := bne_iff_ne.mpr hp
        simp only [List.filter_cons, ht, if_true, List.lookup, ih]

/-- A key-preserving map over an association list preserves which keys are
present. -/
theorem lookup_isSome_map_keys {α : Type} (k : Nat) (f : Nat × α → α)
    (l : List (Nat × α)) :
    ((l.map (fun p => (p.1, f p))).lookup k).isSome
      = (l.lookup k).isSome := by
  induction l with
  | nil => rfl
  | cons p rest ih =>
      by_cases hb : k = p.1
      · have hb2 : (k == p.1) = true := beq_iff_eq.mpr hb
        simp [List.map_cons, List.lookup, hb2]
      · have hb2 : (k == p.1) = false := beq_eq_false_iff_ne.mpr hb
        simp [List.map_cons, List.lookup, hb2, ih]

/-- The error surfaced to the FUSE layer when an operation is called with a
handle absent from `_open_buffers` (the `KeyError` raised by
`self._open_buffers[fh]`). -/
inductive FuseError where
  | invalidHandle : FuseError
  deriving DecidableEq, Repr

/-- `FuseSnapshot.__init__` state (lines 93–98): the pool name, the
`_open_buffers` dict (handle → `SendBuffer`) and the `_max_buffer_id`
counter. -/
structure FuseSnapshot where
  zpool : String
  open_buffers : List (Nat × SendBuffer)
  max_buffer_id : Nat
  deriving DecidableEq, Repr

/-- A fresh mount (lines 97–98): empty handle table, counter 0. -/
def FuseSnapshot.initial (zpool : String) : FuseSnapshot :=
  { zpool := zpool, open_buffers := [], max_buffer_id := 0 }

/-- `FuseSnapshot.open` (lines 161–167): allocates `_max_buffer_id + 1`,
makes it the new counter value, stores a fresh `SendBuffer` under it and
returns it. `stream` models the standard output of the `zfs send`
subprocess spawned by `SendBuffer.__init__` for the resolved path. -/
def FuseSnapshot.open_file (fs : FuseSnapshot) (_path : String)
    (stream : List Nat) : FuseSnapshot × Nat :=
  ({ fs with
      max_buffer_id := fs.max_buffer_id + 1,
      open_buffers :=
        (fs.max_buffer_id + 1, SendBuffer.init stream) :: fs.open_buffers },
   fs.max_buffer_id + 1)

/-- `FuseSnapshot.read` (lines 169–171): `KeyError` (invalid handle) if the
handle is absent; otherwise delegates to the buffer's `read`. The in-place
mutation of the buffer object is modelled by rewriting its table entry. -/
def FuseSnapshot.read_file (fs : FuseSnapshot) (fh length offset : Nat) :
    Except FuseError (List Nat × FuseSnapshot) :=
  match fs.open_buffers.lookup fh with
  | Option.none => Except.error FuseError.invalidHandle
  | some buf =>
      Except.ok ((buf.read length offset).1,
        { fs with
            open_buffers := fs.open_buffers.map (fun p =>
              (p.1, if p.1 == fh then (buf.read length offset).2 else p.2)) })

/-- `FuseSnapshot.release` (lines 173–175): `KeyError` (invalid handle) if
the handle is absent; otherwise `close()`s the buffer (terminating its
subprocess) and deletes its table entry — the only deletion in the class. -/
def FuseSnapshot.release (fs : FuseSnapshot) (fh : Nat) :
    Except FuseError FuseSnapshot :=
  match fs.open_buffers.lookup fh with
  | Option.none => Except.error FuseError.invalidHandle
  | some _ =>
      Except.ok { fs with
        open_buffers := fs.open_buffers.filter (fun p => p.1 != fh) }

/-- Shape of a successful `release`: the counter is untouched and the
handle's entry is filtered out of the table. -/
theorem release_ok_state (fs : FuseSnapshot) (fh : Nat) (fs2 : FuseSnapshot)
    (h : fs.release fh = Except.ok fs2) :
    fs2.max_buffer_id = fs.max_buffer_id
    ∧ fs2.open_buffers = fs.open_buffers.filter (fun p => p.1 != fh) := by
  unfold FuseSnapshot.release at h
  cases hl : fs.open_buffers.lookup fh with
  | none => rw [hl] at h; exact absurd h (by simp)
  | some buf =>
      rw [hl] at h
      injection h with h2
      rw [← h2]
      exact ⟨rfl, rfl⟩

/-- Shape of a successful `read`: the counter is untouched and the set of
present handles is unchanged. -/
theorem read_ok_state (fs : FuseSnapshot) (fh length offset : Nat)
    (r : List Nat × FuseSnapshot)
    (h : fs.read_file fh length offset = Except.ok r) :
    r.2.max_buffer_id = fs.max_buffer_id
    ∧ ∀ k, (r.2.open_buffers.lookup k).isSome
        = (fs.open_buffers.lookup k).isSome := by
  unfold FuseSnapshot.read_file at h
  cases hl : fs.open_buffers.lookup fh with
  | none => rw [hl] at h; exact absurd h (by simp)
  | some buf =>
      rw [hl] at h
      injection h with h2
      rw [← h2]
      exact ⟨rfl, fun k => lookup_isSome_map_keys k _ fs.open_buffers⟩

/-- Presence of a key after consing an entry onto the table. -/
theorem lookup_cons_isSome {α : Type} (k a : Nat) (v : α) (l : List (Nat × α)) :
    (((a, v) :: l).lookup k).isSome = (k == a || (l.lookup k).isSome) := by
  by_cases hb : k = a
  · simp [List.lookup, beq_iff_eq.mpr hb]
  · simp [List.lookup, beq_eq_false_iff_ne.mpr hb]

/-- C8: after a successful `release fh`, a `read` on the same handle `fh`
fails with the invalid-handle error (the `KeyError` path of
`self._open_buffers[fh]`). -/
theorem release_then_read_invalid (fs fs2 : FuseSnapshot)
    (fh length offset : Nat) (h : fs.release fh = Except.ok fs2) :
    fs2.read_file fh length offset = Except.error FuseError.invalidHandle := by
  have h2 := (release_ok_state fs fh fs2 h).2
  unfold FuseSnapshot.read_file
  rw [h2, lookup_filter_self]

/-- Witness for C8: open handle 1, release it, then read on handle 1. -/
theorem release_then_read_invalid_witness :
    (FuseSnapshot.mk "tank" [(1, SendBuffer.init [9])] 1).release 1
      = Except.ok (FuseSnapshot.mk "tank" [] 1)
    ∧ (FuseSnapshot.mk "tank" [] 1).read_file 1 4 0
      = Except.error FuseError.invalidHandle :=
  ⟨rfl,
   release_then_read_invalid (FuseSnapshot.mk "tank" [(1, SendBuffer.init [9])] 1)
     (FuseSnapshot.mk "tank" [] 1) 1 4 0 rfl⟩

/-- One call dispatched by the FUSE layer to the `FuseSnapshot` object. -/
inductive FsEvent where
  | open_call (path : String) (stream : List Nat) : FsEvent
  | read_call (fh length offset : Nat) : FsEvent
  | release_call (fh : Nat) : FsEvent
  deriving DecidableEq, Repr

/-- Applies one event to the filesystem state; a raised error leaves the
state unchanged (the exception propagates to the FUSE layer and the mount
keeps serving). The second component is the handle returned by an `open`. -/
def FsEvent.step (fs : FuseSnapshot) : FsEvent → FuseSnapshot × Option Nat
  | FsEvent.open_call path stream =>
      ((fs.open_file path stream).1, some (fs.open_file path stream).2)
  | FsEvent.read_call fh length offset =>
      match fs.read_file fh length offset with
      | Except.ok r => (r.2, Option.none)
      | Except.error _ => (fs, Option.none)
  | FsEvent.release_call fh =>
      match fs.release fh with
      | Except.ok fs2 => (fs2, Option.none)
      | Except.error _ => (fs, Option.none)

/-- Runs a trace of calls, collecting the handles allocated by `open`s in
order. -/
def runTrace (fs : FuseSnapshot) : List FsEvent → FuseSnapshot × List Nat
  | [] => (fs, [])
  | e :: rest =>
      ((runTrace (FsEvent.step fs e).1 rest).1,
       (FsEvent.step fs e).2.toList ++ (runTrace (FsEvent.step fs e).1 rest).2)

/-- A `read` event allocates no handle. -/
theorem step_read_no_handle (fs : FuseSnapshot) (fh length offset : Nat) :
    (FsEvent.step fs (FsEvent.read_call fh length offset)).2 = Option.none := by
  simp only [FsEvent.step]
  cases fs.read_file fh length offset <;> rfl

/-- A `release` event allocates no handle. -/
theorem step_release_no_handle (fs : FuseSnapshot) (fh : Nat) :
    (FsEvent.step fs (FsEvent.release_call fh)).2 = Option.none := by
  simp only [FsEvent.step]
  cases fs.release fh <;> rfl

/-- No event decreases the `_max_buffer_id` counter. -/
theorem step_max_le (fs : FuseSnapshot) (e : FsEvent) :
    fs.max_buffer_id ≤ ((FsEvent.step fs e).1).max_buffer_id := by
  cases e with
  | open_call path stream =>
      simp only [FsEvent.step, FuseSnapshot.open_file]
      exact Nat.le_succ _
  | read_call fh length offset =>
      simp only [FsEvent.step]
      cases hr : fs.read_file fh length offset with
      | ok r => exact Nat.le_of_eq (read_ok_state fs fh length offset r hr).1.symm
      | error err => exact Nat.le_refl _
  | release_call fh =>
      simp only [FsEvent.step]
      cases hr : fs.release fh with
      | ok fs2 => exact Nat.le_of_eq (release_ok_state fs fh fs2 hr).1.symm
      | error err => exact Nat.le_refl _

/-- The state after a successful `read` event. -/
theorem step_read_ok (fs : FuseSnapshot) (fh length offset : Nat)
    (r : List Nat × FuseSnapshot)
    (hr : fs.read_file fh length offset = Except.ok r) :
    (FsEvent.step fs (FsEvent.read_call fh length offset)).1 = r.2 := by
  simp only [FsEvent.step, hr]

/-- The state after a failed `read` event. -/
theorem step_read_err (fs : FuseSnapshot) (fh length offset : Nat)
    (e : FuseError) (hr : fs.read_file fh length offset = Except.error e) :
    (FsEvent.step fs (FsEvent.read_call fh length offset)).1 = fs := by
  simp only [FsEvent.step, hr]

/-- The state after a successful `release` event. -/
theorem step_release_ok (fs : FuseSnapshot) (fh : Nat) (fs2 : FuseSnapshot)
    (hr : fs.release fh = Except.ok fs2) :
    (FsEvent.step fs (FsEvent.release_call fh)).1 = fs2 := by
  simp only [FsEvent.step, hr]

/-- The state after a failed `release` event. -/
theorem step_release_err (fs : FuseSnapshot) (fh : Nat) (e : FuseError)
    (hr : fs.release fh = Except.error e) :
    (FsEvent.step fs (FsEvent.release_call fh)).1 = fs := by
  simp only [FsEvent.step, hr]

/-- Every handle allocated along a trace exceeds the counter value the
trace started from. -/
theorem runTrace_handles_gt (es : List FsEvent) (fs : FuseSnapshot) :
    ∀ h ∈ (runTrace fs es).2, fs.max_buffer_id < h := by
  induction es generalizing fs with
  | nil => intro h hh; simp [runTrace] at hh
  | cons e rest ih =>
      intro h hh
      simp only [runTrace, List.mem_append] at hh
      rcases hh with hh | hh
      · cases e with
        | open_call path stream =>
            simp [FsEvent.step, FuseSnapshot.open_file] at hh
            omega
        | read_call fh length offset =>
            rw [step_read_no_handle] at hh
            simp at hh
        | release_call fh =>
            rw [step_release_no_handle] at hh
            simp at hh
      · exact Nat.lt_of_le_of_lt (step_max_le fs e) (ih _ h hh)

/-- The handles allocated along any trace are pairwise strictly
increasing. -/
theorem runTrace_handles_sorted (es : List FsEvent) (fs : FuseSnapshot) :
    List.Pairwise (fun a b => a < b) (runTrace fs es).2 := by
  induction es generalizing fs with
  | nil => simp [runTrace]
  | cons e rest ih =>
      simp only [runTrace]
      cases e with
      | open_call path stream =>
          simp only [FsEvent.step, Option.toList_some, List.singleton_append]
          rw [List.pairwise_cons]
          refine ⟨?_, ih _⟩
          intro y hy
          have hgt := runTrace_handles_gt rest _ y hy
          simp only [FuseSnapshot.open_file] at hgt ⊢
          omega
      | read_call fh length offset =>
          rw [step_read_no_handle]
          simpa using ih _
      | release_call fh =>
          rw [step_release_no_handle]
          simpa using ih _

/-- C7: over any trace of calls on a fresh mount, the handles allocated by
`open` are strictly increasing (hence unique, never reused even after a
`release`); `open` stores the new session in the table under the new
handle; and the only event that can make a present handle disappear from
the table is a `release` of that very handle. -/
theorem open_handles_monotone (zpool : String) (es : List FsEvent) :
    List.Pairwise (fun a b => a < b)
      (runTrace (FuseSnapshot.initial zpool) es).2
    ∧ (∀ (fs : FuseSnapshot) (path : String) (stream : List Nat),
        ((fs.open_file path stream).1.open_buffers.lookup
            (fs.open_file path stream).2)
          = some (SendBuffer.init stream))
    ∧ (∀ (fs : FuseSnapshot) (e : FsEvent) (k : Nat),
        (fs.open_buffers.lookup k).isSome = true →
        (((FsEvent.step fs e).1).open_buffers.lookup k).isSome = false →
        e = FsEvent.release_call k) := by
  refine ⟨runTrace_handles_sorted es _, ?_, ?_⟩
  · intro fs path stream
    simp [FuseSnapshot.open_file, List.lookup]
  · intro fs e k h1 h2
    cases e with
    | open_call path stream =>
        exfalso
        have h2a : (((fs.max_buffer_id + 1, SendBuffer.init stream)
            :: fs.open_buffers).lookup k).isSome = false := h2
        rw [lookup_cons_isSome, Bool.or_eq_false_iff] at h2a
        have h3 := h2a.2
        rw [h1] at h3
        exact Bool.noConfusion h3
    | read_call fh length offset =>
        exfalso
        cases hr : fs.read_file fh length offset with
        | ok r =>
            rw [step_read_ok fs fh length offset r hr] at h2
            rw [(read_ok_state fs fh length offset r hr).2 k, h1] at h2
            exact Bool.noConfusion h2
        | error e2 =>
            rw [step_read_err fs fh length offset e2 hr] at h2
            rw [h1] at h2
            exact Bool.noConfusion h2
    | release_call fh =>
        by_cases hk : k = fh
        · rw [hk]
        · exfalso
          cases hr : fs.release fh with
          | ok fs2 =>
              rw [step_release_ok fs fh fs2 hr] at h2
              rw [(release_ok_state fs fh fs2 hr).2,
                lookup_filter_ne k fh hk, h1] at h2
              exact Bool.noConfusion h2
          | error e2 =>
              rw [step_release_err fs fh e2 hr] at h2
              rw [h1] at h2
              exact Bool.noConfusion h2

/-- Witness for C7: a trace that opens, opens, releases the first handle,
and opens again allocates the handles 1, 2, 3 — never reusing the released
1 — and a concrete instantiation of the only-remover conjunct. -/
theorem open_handles_monotone_witness :
    List.Pairwise (fun a b => a < b)
      (runTrace (FuseSnapshot.initial "tank")
        [FsEvent.open_call "/a@s1" [7, 7], FsEvent.open_call "/a@s2" [9],
         FsEvent.release_call 1, FsEvent.open_call "/a@s1" [7, 7]]).2
    ∧ FsEvent.release_call 2 = FsEvent.release_call 2 :=
  ⟨(open_handles_monotone "tank"
      [FsEvent.open_call "/a@s1" [7, 7], FsEvent.open_call "/a@s2" [9],
       FsEvent.release_call 1, FsEvent.open_call "/a@s1" [7, 7]]).1,
   (open_handles_monotone "tank" []).2.2
     (FuseSnapshot.mk "t" [(2, SendBuffer.init [5])] 2)
     (FsEvent.release_call 2) 2 (by decide) (by decide)⟩

end ZfsFuse
